import Mathlib

/-!
Verification of the natural-language specification of the alpha-vantage-mcp
repository (src/alpha_vantage_mcp/tools.py and src/alpha_vantage_mcp/server.py)
against a shallow embedding of its code in Lean 4.

Modelling conventions:
* Parsed JSON bodies (the result of `response.json()`) are modelled by the
  inductive type `JValue`; Python dicts with string keys are association lists
  (`PyDict`).  Python JSON numbers are modelled exactly as scaled decimals
  `mant * 10 ^ exp10` (`PyNum`); the claims under verification depend only on
  order and zero-ness of numeric values, not on IEEE-754 rounding.
* Python truthiness (`if not x`) is `pyFalsy`; `dict.get` is `pyGet`;
  `str(x)` inside f-strings is `pyStr` (exact for strings, booleans and `None`;
  the textual rendering of non-integer numbers and of nested containers is
  abstracted, no claim depends on it).
* Statements that Python raises an exception are modelled by explicit
  branches producing the same string the surrounding `try/except` handler
  would produce; exception MESSAGE text is modelled after CPython but is not
  load-bearing for any claim (only the handler's fixed message prefix is).
-/

/-- A Python number (int or float) modelled as an exact scaled decimal
`mant * 10 ^ exp10`.  Integers have `exp10 = 0`. -/
structure PyNum where
  mant : Int
  exp10 : Int
deriving DecidableEq

inductive JValue where
  | jstr (s : String)
  | jnum (n : PyNum)
  | jbool (b : Bool)
  | jnull
  | jarr (xs : List JValue)
  | jobj (fields : List (String × JValue))

/-- Python dict with string keys, as produced by `response.json()` for a JSON
object: an association list in insertion order, keys unique. -/
abbrev PyDict := List (String × JValue)

/-- Python `d.get(k)` as an `Option`: the value of the first binding of `k`. -/
def pyLookup? (d : PyDict) (k : String) : Option JValue :=
  (d.find? (fun p => p.1 == k)).map (fun p => p.2)

/-- Python `d.get(k, default)`. -/
def pyGet (d : PyDict) (k : String) (default : JValue) : JValue :=
  (pyLookup? d k).getD default

/-- Python truthiness of a JSON value (`bool(v)`): empty containers, empty
strings, zero, `None` and `False` are falsy. -/
def pyFalsy : JValue → Bool
  | .jstr s => s.toList.isEmpty
  | .jnum n => n.mant == 0
  | .jbool b => !b
  | .jnull => true
  | .jarr xs => xs.isEmpty
  | .jobj fs => fs.isEmpty

/-- The Python type name of a JSON value, used in modelled exception texts.
JSON integers and non-integers are not distinguished (both render "float");
exception messages are not load-bearing. -/
def pyTypeName : JValue → String
  | .jstr _ => "str"
  | .jnum _ => "float"
  | .jbool _ => "bool"
  | .jnull => "NoneType"
  | .jarr _ => "list"
  | .jobj _ => "dict"

/-- Rendering of a number in `str()`/`repr()` position.  Exact for integers
(`exp10 = 0`); other numbers use a scientific-notation-like rendering that
abstracts CPython's shortest-roundtrip float repr.  No claim inspects the
rendering of non-integer numbers. -/
def pyNumRepr (n : PyNum) : String :=
  if n.exp10 = 0 then toString n.mant
  else toString n.mant ++ "e" ++ toString n.exp10

mutual

/-- Python `repr(v)` for JSON values (string quoting simplified: no escape
processing; no claim renders containers). -/
def pyRepr : JValue → String
  | .jstr s => "'" ++ s ++ "'"
  | .jnum n => pyNumRepr n
  | .jbool b => if b then "True" else "False"
  | .jnull => "None"
  | .jarr xs => "[" ++ pyReprElems xs ++ "]"
  | .jobj fs => "\x7b" ++ pyReprFields fs ++ "\x7d"

def pyReprElems : List JValue → String
  | [] => ""
  | [v] => pyRepr v
  | v :: rest => pyRepr v ++ ", " ++ pyReprElems rest

def pyReprFields : List (String × JValue) → String
  | [] => ""
  | [p] => "'" ++ p.1 ++ "': " ++ pyRepr p.2
  | p :: rest => "'" ++ p.1 ++ "': " ++ pyRepr p.2 ++ ", " ++ pyReprFields rest

end

/-- Python `str(v)` as interpolated by an f-string: identity on strings,
`repr` otherwise. -/
def pyStr : JValue → String
  | .jstr s => s
  | v => pyRepr v

/-- Code-point-wise `≤` on char lists: Python's lexicographic string order. -/
def charsLeB : List Char → List Char → Bool
  | [], _ => true
  | _ :: _, [] => false
  | a :: s, b :: t =>
    if a.toNat < b.toNat then true
    else if b.toNat < a.toNat then false
    else charsLeB s t

/-- Python string `≤` (lexicographic by code point). -/
def strLeB (a b : String) : Bool := charsLeB a.toList b.toList

/-- The exact rational value of a scaled-decimal Python number. -/
def PyNum.toRat (n : PyNum) : Rat := (n.mant : Rat) * (10 : Rat) ^ n.exp10

/-- Python `≤` on numbers, computed without normalisation by aligning the
decimal exponents (kernel-computable). -/
def PyNum.leB (a b : PyNum) : Bool :=
  decide (a.mant * (10 : Int) ^ (a.exp10 - min a.exp10 b.exp10).toNat
    ≤ b.mant * (10 : Int) ^ (b.exp10 - min a.exp10 b.exp10).toNat)

/-- Digits to a natural number, most significant first. -/
def digitsToNat (ds : List Char) : Nat :=
  ds.foldl (fun a c => a * 10 + (c.toNat - 48)) 0

/-- Strip leading and trailing whitespace, as Python `float()` does to its
string argument. -/
def pyStrip (cs : List Char) : List Char :=
  ((cs.dropWhile Char.isWhitespace).reverse.dropWhile Char.isWhitespace).reverse

/-- Parse the exponent-and-end-of-input part of a Python float literal:
empty input means exponent 0; otherwise `e`/`E`, an optional sign and at
least one digit, consuming the whole rest. -/
def parseExpPart : List Char → Option Int
  | [] => some 0
  | c :: t =>
    if c == 'e' || c == 'E' then
      match t with
      | '+' :: u => if u.isEmpty || !u.all Char.isDigit then none else some (digitsToNat u)
      | '-' :: u => if u.isEmpty || !u.all Char.isDigit then none else some (-(digitsToNat u : Int))
      | u => if u.isEmpty || !u.all Char.isDigit then none else some (digitsToNat u)
    else none

/-- Python `float(s)` on the finite-decimal fragment of its grammar:
optional surrounding whitespace, optional sign, digits with an optional
decimal point, optional decimal exponent.  `inf`, `nan`, hexadecimal floats
and digit-group underscores are not modelled (parse failure); no claim
depends on them. -/
def pyFloat? (s : String) : Option PyNum :=
  let cs := pyStrip s.toList
  let (sign, cs1) : Int × List Char :=
    match cs with
    | '+' :: t => (1, t)
    | '-' :: t => (-1, t)
    | t => (1, t)
  let ds := cs1.takeWhile Char.isDigit
  let rest := cs1.dropWhile Char.isDigit
  let (fs, rest2) : List Char × List Char :=
    match rest with
    | '.' :: t => (t.takeWhile Char.isDigit, t.dropWhile Char.isDigit)
    | t => ([], t)
  if ds.isEmpty && fs.isEmpty then none
  else
    match parseExpPart rest2 with
    | none => none
    | some e => some ⟨sign * (digitsToNat (ds ++ fs) : Int), e - fs.length⟩

/-- The outcome of `make_alpha_request` (tools.py): either the parsed JSON
body (`dict`) or a human-readable error string. -/
inductive AlphaResult where
  | structured (body : PyDict)
  | failure (msg : String)

/-- Whether a gateway outcome is the structured body (as opposed to a
string-typed failure). -/
def AlphaResult.isStructuredB : AlphaResult → Bool
  | .structured _ => true
  | .failure _ => false

/-- Here `listStartsWith s pat` tests that `pat` begins `s` (char-exact). -/
def listStartsWith : List Char → List Char → Bool
  | _, [] => true
  | [], _ :: _ => false
  | a :: s, b :: t => a == b && listStartsWith s t

/-- Here `listHasSub s pat` tests that `pat` occurs as a contiguous run inside `s`. -/
def listHasSub : List Char → List Char → Bool
  | [], pat => pat.isEmpty
  | c :: t, pat => listStartsWith (c :: t) pat || listHasSub t pat

/-- Python's `needle in haystack` for a string `haystack`: substring test. -/
def strContainsB (haystack needle : String) : Bool :=
  listHasSub haystack.toList needle.toList

/-- Python's `"API call frequency" in v` for a non-string `v`:
membership for lists, key membership for dicts, `TypeError` otherwise
(surfaced as `none`). -/
def pyInNonStr? (needle : String) : JValue → Option Bool
  | .jarr xs => some (xs.any (fun v => match v with | .jstr t => t == needle | _ => false))
  | .jobj fs => some (fs.any (fun p => p.1 == needle))
  | _ => none

/-- tools.py lines 33-41: the body-classification step of
`make_alpha_request` after a 2xx response has been received and parsed as
JSON (`data = response.json()`).  The transport/HTTP-status steps above it
are out of scope of the claims; the surrounding `except Exception` handler
is modelled by the `failure ("Unexpected error occurred: " ++ _)` branch
reached when the `in` test on a non-iterable "Note" value raises
`TypeError`. -/
def make_alpha_request_body (data : PyDict) : AlphaResult :=
  match pyLookup? data "Error Message" with
  | some v => .failure ("Alpha Vantage API error: " ++ pyStr v)
  | none =>
    match pyLookup? data "Note" with
    | some (.jstr note) =>
      if strContainsB note "API call frequency" then
        .failure ("Rate limit warning: " ++ note)
      else .structured data
    | some v =>
      match pyInNonStr? "API call frequency" v with
      | some b =>
        if b then .failure ("Rate limit warning: " ++ pyStr v) else .structured data
      | none =>
        .failure ("Unexpected error occurred: argument of type '" ++ pyTypeName v
          ++ "' is not iterable")
    | none => .structured data

/-- A query-parameter value: a string or Python `None`. -/
abbrev ParamV := Option String

/-- Replace the first binding of `k` (keeping its position, as CPython dicts
do) or append a new binding: one step of `dict.update`. -/
def dictSet (d : List (String × ParamV)) (k : String) (v : ParamV) :
    List (String × ParamV) :=
  match d with
  | [] => [(k, v)]
  | (k', v') :: t => if k' = k then (k, v) :: t else (k', v') :: dictSet t k v

/-- Python `base.update(ext)`. -/
def dictUpdate (base ext : List (String × ParamV)) : List (String × ParamV) :=
  ext.foldl (fun d p => dictSet d p.1 p.2) base

/-- First-binding lookup in a parameter dict. -/
def paramLookup? (d : List (String × ParamV)) (k : String) : Option ParamV :=
  (d.find? (fun p => p.1 == k)).map (fun p => p.2)

/-- tools.py lines 10-16: the query-parameter dict built by
`make_alpha_request`.  `API_KEY` (a module global read from the environment
at import time) is passed as the `apikey` argument.  Note the literal dict
always contains the key "symbol", bound to `None` when the `symbol`
argument is `None`; `params.update(additional_params)` is applied last
(skipped for an empty dict, which changes nothing). -/
def alpha_request_params (function : String) (symbol : ParamV) (apikey : ParamV)
    (additional_params : List (String × ParamV)) : List (String × ParamV) :=
  dictUpdate [("function", some function), ("symbol", symbol), ("apikey", apikey)]
    additional_params

/-- The fixed-layout body of `format_quote` for an extracted "Global Quote"
object `gq` (tools.py lines 58-66). -/
def quoteRender (gq : PyDict) : String :=
  "Price: $" ++ pyStr (pyGet gq "05. price" (.jstr "N/A")) ++ "\n" ++
  "Change: $" ++ pyStr (pyGet gq "09. change" (.jstr "N/A")) ++ " " ++
  "(" ++ pyStr (pyGet gq "10. change percent" (.jstr "N/A")) ++ ")\n" ++
  "Volume: " ++ pyStr (pyGet gq "06. volume" (.jstr "N/A")) ++ "\n" ++
  "High: $" ++ pyStr (pyGet gq "03. high" (.jstr "N/A")) ++ "\n" ++
  "Low: $" ++ pyStr (pyGet gq "04. low" (.jstr "N/A")) ++ "\n" ++
  "---"

/-- tools.py `format_quote`: extract "Global Quote"; falsy => fixed no-data
message; a truthy non-dict value makes `global_quote.get` raise
`AttributeError`, caught by the function's guard. -/
def format_quote (quote_data : PyDict) : String :=
  let gq := pyGet quote_data "Global Quote" (.jobj [])
  if pyFalsy gq then "No quote data available in the response"
  else
    match gq with
    | .jobj fields => quoteRender fields
    | v => "Error formatting quote data: "
        ++ ("'" ++ pyTypeName v ++ "' object has no attribute 'get'")

/-- The fixed-layout body of `format_company_info` (tools.py lines 76-85):
all lookups are on the top-level dict and cannot raise. -/
def companyRender (d : PyDict) : String :=
  "Name: " ++ pyStr (pyGet d "Name" (.jstr "N/A")) ++ "\n" ++
  "Sector: " ++ pyStr (pyGet d "Sector" (.jstr "N/A")) ++ "\n" ++
  "Industry: " ++ pyStr (pyGet d "Industry" (.jstr "N/A")) ++ "\n" ++
  "Market Cap: $" ++ pyStr (pyGet d "MarketCapitalization" (.jstr "N/A")) ++ "\n" ++
  "Description: " ++ pyStr (pyGet d "Description" (.jstr "N/A")) ++ "\n" ++
  "Exchange: " ++ pyStr (pyGet d "Exchange" (.jstr "N/A")) ++ "\n" ++
  "Currency: " ++ pyStr (pyGet d "Currency" (.jstr "N/A")) ++ "\n" ++
  "---"

/-- tools.py `format_company_info`: an empty (falsy) overview dict returns
the distinct no-data message; otherwise the fixed-layout report. -/
def format_company_info (overview_data : PyDict) : String :=
  if overview_data.isEmpty then "No company information available in the response"
  else companyRender overview_data

/-- The fixed-layout body of `format_crypto_rate` for an extracted
"Realtime Currency Exchange Rate" object (tools.py lines 96-103). -/
def cryptoRender (r : PyDict) : String :=
  "From: " ++ pyStr (pyGet r "2. From_Currency Name" (.jstr "N/A")) ++ " " ++
  "(" ++ pyStr (pyGet r "1. From_Currency Code" (.jstr "N/A")) ++ ")\n" ++
  "To: " ++ pyStr (pyGet r "4. To_Currency Name" (.jstr "N/A")) ++ " " ++
  "(" ++ pyStr (pyGet r "3. To_Currency Code" (.jstr "N/A")) ++ ")\n" ++
  "Exchange Rate: " ++ pyStr (pyGet r "5. Exchange Rate" (.jstr "N/A")) ++ "\n" ++
  "Last Updated: " ++ pyStr (pyGet r "6. Last Refreshed" (.jstr "N/A")) ++ " " ++
  pyStr (pyGet r "7. Time Zone" (.jstr "N/A")) ++ "\n" ++
  "Bid Price: " ++ pyStr (pyGet r "8. Bid Price" (.jstr "N/A")) ++ "\n" ++
  "Ask Price: " ++ pyStr (pyGet r "9. Ask Price" (.jstr "N/A")) ++ "\n" ++
  "---"

/-- tools.py `format_crypto_rate`. -/
def format_crypto_rate (crypto_data : PyDict) : String :=
  let r := pyGet crypto_data "Realtime Currency Exchange Rate" (.jobj [])
  if pyFalsy r then "No exchange rate data available in the response"
  else
    match r with
    | .jobj fields => cryptoRender fields
    | v => "Error formatting cryptocurrency data: "
        ++ ("'" ++ pyTypeName v ++ "' object has no attribute 'get'")

/-- One dated block of `format_time_series` (tools.py lines 127-135). -/
def tsBlock (date : String) (v : PyDict) : String :=
  "Date: " ++ date ++ "\n" ++
  "Open: $" ++ pyStr (pyGet v "1. open" (.jstr "N/A")) ++ "\n" ++
  "High: $" ++ pyStr (pyGet v "2. high" (.jstr "N/A")) ++ "\n" ++
  "Low: $" ++ pyStr (pyGet v "3. low" (.jstr "N/A")) ++ "\n" ++
  "Close: $" ++ pyStr (pyGet v "4. close" (.jstr "N/A")) ++ "\n" ++
  "Volume: " ++ pyStr (pyGet v "5. volume" (.jstr "N/A")) ++ "\n" ++
  "---\n"

/-- Render the date blocks in order; a non-dict entry value makes
`values.get` raise `AttributeError` at the first offender (its Python type
name is the error payload). -/
def tsBlocks? : List (String × JValue) → Except String (List String)
  | [] => .ok []
  | (date, v) :: rest =>
    match v with
    | .jobj fields =>
      match tsBlocks? rest with
      | .ok bs => .ok (tsBlock date fields :: bs)
      | .error e => .error e
    | _ => .error (pyTypeName v)

/-- The header element of `format_time_series` (tools.py lines 122-124). -/
def tsHeading (md : PyDict) : String :=
  "Time Series Data for " ++ pyStr (pyGet md "2. Symbol" (.jstr "Unknown")) ++
  " (Last Refreshed: " ++ pyStr (pyGet md "3. Last Refreshed" (.jstr "Unknown")) ++
  ")\n\n"

/-- tools.py `format_time_series`: extract the date-indexed mapping (falsy
=> fixed no-data message), the metadata object, then render the first 5
entries in the mapping's insertion order and join everything with a
newline.  A truthy non-dict mapping (`.items()`) or metadata / entry value
(`.get`) raises, caught by the guard. -/
def format_time_series (time_series_data : PyDict) : String :=
  let ts := pyGet time_series_data "Time Series (Daily)" (.jobj [])
  if pyFalsy ts then "No time series data available in the response"
  else
    match ts with
    | .jobj entries =>
      match pyGet time_series_data "Meta Data" (.jobj []) with
      | .jobj md =>
        match tsBlocks? (entries.take 5) with
        | .ok bs => String.intercalate "\n" (tsHeading md :: bs)
        | .error tname => "Error formatting time series data: "
            ++ ("'" ++ tname ++ "' object has no attribute 'get'")
      | v => "Error formatting time series data: "
          ++ ("'" ++ pyTypeName v ++ "' object has no attribute 'get'")
    | v => "Error formatting time series data: "
        ++ ("'" ++ pyTypeName v ++ "' object has no attribute 'items'")

/-- An options contract: the dict the provider returns per contract. -/
abbrev Contract := List (String × JValue)

/-- The sort key computed by `get_sort_key`: a number when `float()`
succeeded, otherwise the value returned by the `except` fallback. -/
inductive SortKey where
  | num (n : PyNum)
  | raw (v : JValue)

/-- Python replacement of the two characters dollar and percent by nothing:
tools.py lines 163-164. -/
def stripMoney (s : String) : String :=
  String.mk (s.toList.filter (fun c => !(c == '$') && !(c == '%')))

/-- tools.py lines 159-167, `get_sort_key` (closure over `sort_by`):
`value = contract.get(sort_by, 0)`; strings are `$`/`%`-stripped IN PLACE
before `float(value)`, so the `except (ValueError, TypeError)` fallback
returns the STRIPPED string, not the raw one; non-string values that
`float()` rejects (lists, dicts, `None`) are returned unchanged; booleans
convert like Python (`float(True) = 1.0`). -/
def get_sort_key (sort_by : String) (contract : Contract) : SortKey :=
  match pyGet contract sort_by (.jnum ⟨0, 0⟩) with
  | .jstr s =>
    match pyFloat? (stripMoney s) with
    | some n => .num n
    | none => .raw (.jstr (stripMoney s))
  | .jnum n => .num n
  | .jbool b => .num ⟨if b then 1 else 0, 0⟩
  | v => .raw v

/-- Python `<=` between two sort keys where Python defines it: numerically
between numbers, lexicographically between strings.  Any other pairing
raises `TypeError` in Python; the value `false` here is a placeholder that
is never relied on — `format_historical_options` guards the sort with
`sortableChain`, and the sorting theorems assume it. -/
def keyLE : SortKey → SortKey → Bool
  | .num a, .num b => PyNum.leB a b
  | .raw (.jstr a), .raw (.jstr b) => strLeB a b
  | _, _ => false

/-- Whether Python's `<` is defined between two sort keys (numbers with
numbers, strings with strings).  Pairs of list-valued keys, whose Python
comparison may or may not raise depending on their elements, are
conservatively rejected; no claim involves them. -/
def comparableKeys : SortKey → SortKey → Bool
  | .num _, .num _ => true
  | .raw (.jstr _), .raw (.jstr _) => true
  | _, _ => false

/-- The comparison `sorted` performs between two contracts. -/
def contractLE (sort_by : String) (a b : Contract) : Bool :=
  keyLE (get_sort_key sort_by a) (get_sort_key sort_by b)

/-- All pairs of sort keys of the chain are Python-comparable: exactly when
`sorted(options_chain, key=get_sort_key)` completes without `TypeError`. -/
def sortableChain (sort_by : String) (chain : List Contract) : Bool :=
  chain.all (fun a => chain.all (fun b =>
    comparableKeys (get_sort_key sort_by a) (get_sort_key sort_by b)))

/-- Stable insertion of `a` into `l`: `a` goes before the first element it
compares `≤` to, so an earlier-arriving element precedes equal ones. -/
def stableInsert (le : α → α → Bool) (a : α) : List α → List α
  | [] => [a]
  | b :: l => if le a b then a :: b :: l else b :: stableInsert le a l

/-- Stable sort by a boolean total preorder.  Python's `sorted` (Timsort)
is stable, and every stable sort by the same total preorder computes the
same sequence, so this binary-insertion model is extensionally Python's
`sorted`. -/
def stableSort (le : α → α → Bool) : List α → List α
  | [] => []
  | a :: l => stableInsert le a (stableSort le l)

/-- tools.py lines 170-174: `sorted(options_chain, key=get_sort_key,
reverse=(sort_order == "desc"))`.  `reverse=True` is modelled the way
CPython implements it (reverse, stable ascending sort, reverse), which is
the documented stable descending sort. -/
def sortChain (sort_by sort_order : String) (chain : List Contract) : List Contract :=
  if sort_order = "desc" then (stableSort (contractLE sort_by) chain.reverse).reverse
  else stableSort (contractLE sort_by) chain

/-- One rendered contract (tools.py lines 180-197). -/
def contractBlock (c : Contract) : String :=
  "Contract Details:\n" ++
  "Contract ID: " ++ pyStr (pyGet c "contractID" (.jstr "N/A")) ++ "\n" ++
  "Expiration: " ++ pyStr (pyGet c "expiration" (.jstr "N/A")) ++ "\n" ++
  "Strike: $" ++ pyStr (pyGet c "strike" (.jstr "N/A")) ++ "\n" ++
  "Type: " ++ pyStr (pyGet c "type" (.jstr "N/A")) ++ "\n" ++
  "Last: $" ++ pyStr (pyGet c "last" (.jstr "N/A")) ++ "\n" ++
  "Mark: $" ++ pyStr (pyGet c "mark" (.jstr "N/A")) ++ "\n" ++
  "Bid: $" ++ pyStr (pyGet c "bid" (.jstr "N/A")) ++ " (Size: " ++
    pyStr (pyGet c "bid_size" (.jstr "N/A")) ++ ")\n" ++
  "Ask: $" ++ pyStr (pyGet c "ask" (.jstr "N/A")) ++ " (Size: " ++
    pyStr (pyGet c "ask_size" (.jstr "N/A")) ++ ")\n" ++
  "Volume: " ++ pyStr (pyGet c "volume" (.jstr "N/A")) ++ "\n" ++
  "Open Interest: " ++ pyStr (pyGet c "open_interest" (.jstr "N/A")) ++ "\n" ++
  "IV: " ++ pyStr (pyGet c "implied_volatility" (.jstr "N/A")) ++ "\n" ++
  "Delta: " ++ pyStr (pyGet c "delta" (.jstr "N/A")) ++ "\n" ++
  "Gamma: " ++ pyStr (pyGet c "gamma" (.jstr "N/A")) ++ "\n" ++
  "Theta: " ++ pyStr (pyGet c "theta" (.jstr "N/A")) ++ "\n" ++
  "Vega: " ++ pyStr (pyGet c "vega" (.jstr "N/A")) ++ "\n" ++
  "Rho: " ++ pyStr (pyGet c "rho" (.jstr "N/A")) ++ "\n" ++
  "---\n"

/-- The three header elements of `format_historical_options`
(tools.py lines 152-156), joined. -/
def optionsHeading (options_data : PyDict) (sort_by sort_order : String) : String :=
  "Historical Options Data:\n" ++
  "Status: " ++ pyStr (pyGet options_data "message" (.jstr "N/A")) ++ "\n" ++
  "Sorted by: " ++ sort_by ++ " (" ++ sort_order ++ ")\n\n"

/-- Coerce the elements of the "data" list to contract dicts; a non-dict
element makes `contract.get` raise `AttributeError` (its type name is the
error payload). -/
def contractsOf? : List JValue → Except String (List Contract)
  | [] => .ok []
  | v :: rest =>
    match v with
    | .jobj c =>
      match contractsOf? rest with
      | .ok cs => .ok (c :: cs)
      | .error e => .error e
    | _ => .error (pyTypeName v)

/-- The truthy "data" value as a contract list; any truthy non-list (or a
list with a non-dict element) raises while iterating or while calling
`contract.get`. -/
def toContracts? : JValue → Except String (List Contract)
  | .jarr xs => contractsOf? xs
  | v => .error (pyTypeName v)

/-- Python `l[:n]` for an integer `n` (negative `n` counts from the end,
clamped at zero). -/
def pySliceTo (l : List α) (n : Int) : List α :=
  if 0 ≤ n then l.take n.toNat else l.take (l.length - (-n).toNat)

/-- tools.py line 177: `sorted_chain if limit == -1 else sorted_chain[:limit]`. -/
def optionsDisplay (limit : Int) (sorted_chain : List Contract) : List Contract :=
  if limit = -1 then sorted_chain else pySliceTo sorted_chain limit

/-- tools.py lines 199-200: append the truncation suffix exactly when
`limit != -1 and len(sorted_chain) > limit`. -/
def optionsSuffixed (base : String) (limit : Int) (total : Nat) : String :=
  if limit ≠ -1 ∧ (total : Int) > limit then
    base ++ "\n... and " ++ toString ((total : Int) - limit) ++ " more contracts"
  else base

/-- The output of `format_historical_options` on the exception-free path
(tools.py lines 152-202): header, the displayed slice of the sorted chain,
and the conditional truncation suffix. -/
def optionsRender (options_data : PyDict) (limit : Int) (sort_by sort_order : String)
    (chain : List Contract) : String :=
  optionsSuffixed
    (optionsHeading options_data sort_by sort_order ++
      String.join ((optionsDisplay limit (sortChain sort_by sort_order chain)).map
        contractBlock))
    limit (sortChain sort_by sort_order chain).length

/-- tools.py `format_historical_options`.  Shapes on which the Python body
raises (non-list truthy "data", non-dict contracts, sort keys Python
cannot compare) land in the function's own guard, producing the
"Error formatting options data: …" string; the modelled exception message
after the prefix abstracts CPython's text. -/
def format_historical_options (options_data : PyDict) (limit : Int)
    (sort_by sort_order : String) : String :=
  match pyLookup? options_data "Error Message" with
  | some v => "Error: " ++ pyStr v
  | none =>
    let dataV := pyGet options_data "data" (.jarr [])
    if pyFalsy dataV then "No options data available in the response"
    else
      match toContracts? dataV with
      | .ok chain =>
        if sortableChain sort_by chain then
          optionsRender options_data limit sort_by sort_order chain
        else
          "Error formatting options data: "
            ++ "'<' not supported between instances of the sort key types"
      | .error tname => "Error formatting options data: "
          ++ ("'" ++ tname ++ "' object has no attribute 'get'")

/-- What a `handle_call_tool` branch does before any network I/O:
a `text` early return (one `TextContent`, a SUCCESSFUL tool result at the
protocol level), `proceed` into the branch body with the validated
upper-cased symbol, or an uncaught exception escaping to the host. -/
inductive ToolOutcome where
  | text (s : String)
  | proceed (tool : String) (symbol : String)
  | raiseExn (msg : String)
deriving DecidableEq

/-- Python `str.upper()` (ASCII case mapping; the claims only involve ASCII
symbols). -/
def pyUpper (s : String) : String := s.toUpper

/-- server.py: the shared `symbol` validation of every symbol-keyed branch:
`symbol = arguments.get("symbol")`, `if not symbol: return [TextContent(...,
"Missing symbol parameter")]`, `symbol = symbol.upper()`. -/
def symbolGuard (tool : String) (args : PyDict) : ToolOutcome :=
  let symv := (pyLookup? args "symbol").getD .jnull
  if pyFalsy symv then .text "Missing symbol parameter"
  else
    match symv with
    | .jstr s => .proceed tool (pyUpper s)
    | v => .raiseExn ("'" ++ pyTypeName v ++ "' object has no attribute 'upper'")

/-- server.py lines 304-311: the `get-crypto-exchange-rate` validation. -/
def cryptoGuard (args : PyDict) : ToolOutcome :=
  let cv := (pyLookup? args "crypto_symbol").getD .jnull
  if pyFalsy cv then .text "Missing crypto_symbol parameter"
  else
    match cv with
    | .jstr s =>
      match pyGet args "market" (.jstr "USD") with
      | .jstr _ => .proceed "get-crypto-exchange-rate" (pyUpper s)
      | v => .raiseExn ("'" ++ pyTypeName v ++ "' object has no attribute 'upper'")
    | v => .raiseExn ("'" ++ pyTypeName v ++ "' object has no attribute 'upper'")

/-- server.py `handle_call_tool`, modelled up to (not including) the
network call of the selected branch: the `if not arguments` guard, the
tool-name dispatch, the per-branch argument validation and the unknown-tool
fallback. -/
def handle_call_tool_pre (name : String) (arguments : Option PyDict) : ToolOutcome :=
  match arguments with
  | none => .text "Missing arguments for the request"
  | some args =>
    if args.isEmpty then .text "Missing arguments for the request"
    else if name = "get-stock-quote" then symbolGuard name args
    else if name = "get-company-info" then symbolGuard name args
    else if name = "get-crypto-exchange-rate" then cryptoGuard args
    else if name = "get-time-series" then symbolGuard name args
    else if name = "get-historical-options" then symbolGuard name args
    else if name = "analyze-technical-setup" then symbolGuard name args
    else if name = "analyze-institutional-activity" then symbolGuard name args
    else if name = "analyze-futures-trade-setup" then symbolGuard name args
    else if name = "get-timing-edge" then symbolGuard name args
    else .text ("Unknown tool: " ++ name)

/-- The tools whose required argument is "symbol". -/
def symbolKeyedTools : List String :=
  ["get-stock-quote", "get-company-info", "get-time-series",
   "get-historical-options", "analyze-technical-setup",
   "analyze-institutional-activity", "analyze-futures-trade-setup",
   "get-timing-edge"]

theorem charsLeB_total (a b : List Char) :
    charsLeB a b = true ∨ charsLeB b a = true := by
  induction a generalizing b with
  | nil => exact Or.inl rfl
  | cons x s ih =>
    cases b with
    | nil => exact Or.inr rfl
    | cons y t =>
      simp only [charsLeB]
      rcases Nat.lt_trichotomy x.toNat y.toNat with h | h | h
      · left
        simp [h]
      · simp [h, Nat.lt_irrefl]
        exact ih t
      · right
        simp [h, Nat.lt_asymm h]

theorem charsLeB_trans (a b c : List Char) (h1 : charsLeB a b = true)
    (h2 : charsLeB b c = true) : charsLeB a c = true := by
  induction a generalizing b c with
  | nil => rfl
  | cons x s ih =>
    cases b with
    | nil => simp [charsLeB] at h1
    | cons y t =>
      cases c with
      | nil => simp [charsLeB] at h2
      | cons z u =>
        simp only [charsLeB] at h1 h2 ⊢
        split_ifs at h1 h2 ⊢ with h h' h'' <;>
          first
            | rfl
            | omega
            | (exact ih t u h1 h2)

theorem strLeB_total (a b : String) : strLeB a b = true ∨ strLeB b a = true :=
  charsLeB_total a.toList b.toList

theorem strLeB_trans (a b c : String) (h1 : strLeB a b = true)
    (h2 : strLeB b c = true) : strLeB a c = true :=
  charsLeB_trans a.toList b.toList c.toList h1 h2

theorem pyNum_cast_scaled (m e d : Int) (h : d ≤ e) :
    ((m * 10 ^ (e - d).toNat : Int) : Rat)
      = ((m : Rat) * (10 : Rat) ^ e) * (10 : Rat) ^ (-d) := by
  push_cast
  rw [← zpow_natCast (10 : Rat) (e - d).toNat,
    Int.toNat_of_nonneg (by omega : (0 : Int) ≤ e - d), sub_eq_add_neg,
    zpow_add₀ (by norm_num : (10 : Rat) ≠ 0)]
  ring

theorem PyNum.leB_iff (a b : PyNum) : PyNum.leB a b = true ↔ a.toRat ≤ b.toRat := by
  unfold PyNum.leB
  rw [decide_eq_true_eq, ← Int.cast_le (R := Rat),
    pyNum_cast_scaled a.mant a.exp10 (min a.exp10 b.exp10) (min_le_left _ _),
    pyNum_cast_scaled b.mant b.exp10 (min a.exp10 b.exp10) (min_le_right _ _)]
  exact mul_le_mul_right (by positivity)

theorem PyNum.leB_total (a b : PyNum) :
    PyNum.leB a b = true ∨ PyNum.leB b a = true := by
  rw [PyNum.leB_iff, PyNum.leB_iff]
  exact le_total _ _

theorem PyNum.leB_trans (a b c : PyNum) (h1 : PyNum.leB a b = true)
    (h2 : PyNum.leB b c = true) : PyNum.leB a c = true := by
  rw [PyNum.leB_iff] at h1 h2 ⊢
  exact le_trans h1 h2

theorem mem_stableInsert (le : α → α → Bool) (a x : α) (l : List α) :
    x ∈ stableInsert le a l ↔ x = a ∨ x ∈ l := by
  induction l with
  | nil => simp [stableInsert]
  | cons b t ih =>
    simp only [stableInsert]
    by_cases h : le a b
    · simp [h]
    · simp [h, ih, List.mem_cons, or_left_comm]

theorem mem_stableSort (le : α → α → Bool) (l : List α) (x : α) :
    x ∈ stableSort le l ↔ x ∈ l := by
  induction l with
  | nil => simp [stableSort]
  | cons a t ih => simp [stableSort, mem_stableInsert, ih]

theorem length_stableInsert (le : α → α → Bool) (a : α) (l : List α) :
    (stableInsert le a l).length = l.length + 1 := by
  induction l with
  | nil => rfl
  | cons b t ih =>
    simp only [stableInsert]
    by_cases h : le a b
    · simp [h]
    · simp [h, ih]

theorem length_stableSort (le : α → α → Bool) (l : List α) :
    (stableSort le l).length = l.length := by
  induction l with
  | nil => rfl
  | cons a t ih => simp [stableSort, length_stableInsert, ih]

theorem pairwise_stableInsert (le : α → α → Bool) (a : α) (l : List α)
    (hl : l.Pairwise (fun x y => le x y = true))
    (htot : ∀ b ∈ l, le a b = true ∨ le b a = true)
    (htr : ∀ x ∈ l, ∀ y ∈ l, le a x = true → le x y = true → le a y = true) :
    (stableInsert le a l).Pairwise (fun x y => le x y = true) := by
  induction l with
  | nil => simp [stableInsert]
  | cons b t ih =>
    rcases List.pairwise_cons.mp hl with ⟨hb, ht⟩
    simp only [stableInsert]
    by_cases h : le a b
    · rw [if_pos h]
      refine List.pairwise_cons.mpr ⟨?_, hl⟩
      intro x hx
      rcases List.mem_cons.mp hx with rfl | hx'
      · exact h
      · exact htr b (by simp) x (by simp [hx']) h (hb x hx')
    · rw [if_neg h]
      refine List.pairwise_cons.mpr ⟨?_, ?_⟩
      · intro x hx
        rcases (mem_stableInsert le a x t).mp hx with rfl | hx'
        · rcases htot b (by simp) with h' | h'
          · exact absurd h' h
          · exact h'
        · exact hb x hx'
      · exact ih ht (fun b' hb' => htot b' (by simp [hb']))
          (fun x hx y hy => htr x (by simp [hx]) y (by simp [hy]))

theorem pairwise_stableSort (le : α → α → Bool) (l : List α)
    (htot : ∀ x ∈ l, ∀ y ∈ l, le x y = true ∨ le y x = true)
    (htr : ∀ x ∈ l, ∀ y ∈ l, ∀ z ∈ l,
      le x y = true → le y z = true → le x z = true) :
    (stableSort le l).Pairwise (fun x y => le x y = true) := by
  induction l with
  | nil => simp [stableSort]
  | cons a t ih =>
    simp only [stableSort]
    refine pairwise_stableInsert le a (stableSort le t)
      (ih (fun x hx y hy => htot x (by simp [hx]) y (by simp [hy]))
        (fun x hx y hy z hz =>
          htr x (by simp [hx]) y (by simp [hy]) z (by simp [hz])))
      ?_ ?_
    · intro b hb
      exact htot a (by simp) b (by simp [(mem_stableSort le t b).mp hb])
    · intro x hx y hy
      exact htr a (by simp) x (by simp [(mem_stableSort le t x).mp hx])
        y (by simp [(mem_stableSort le t y).mp hy])

theorem stableSort_of_pairwise (le : α → α → Bool) (l : List α)
    (h : l.Pairwise (fun x y => le x y = true)) : stableSort le l = l := by
  induction l with
  | nil => rfl
  | cons a t ih =>
    rcases List.pairwise_cons.mp h with ⟨ha, ht⟩
    simp only [stableSort, ih ht]
    cases t with
    | nil => rfl
    | cons b u => simp only [stableInsert, if_pos (ha b (by simp))]

theorem stableSort_idem (le : α → α → Bool) (l : List α)
    (htot : ∀ x ∈ l, ∀ y ∈ l, le x y = true ∨ le y x = true)
    (htr : ∀ x ∈ l, ∀ y ∈ l, ∀ z ∈ l,
      le x y = true → le y z = true → le x z = true) :
    stableSort le (stableSort le l) = stableSort le l := by
  refine stableSort_of_pairwise le (stableSort le l) ?_
  refine pairwise_stableSort le l htot htr

/-- A chain whose key pairs are all Python-comparable has keys of a single
kind: all numbers, or all strings. -/
theorem sortable_cases (sb : String) (chain : List Contract)
    (h : sortableChain sb chain = true) :
    (∀ c ∈ chain, ∃ n, get_sort_key sb c = .num n)
      ∨ (∀ c ∈ chain, ∃ s, get_sort_key sb c = .raw (.jstr s)) := by
  have hp : ∀ a ∈ chain, ∀ b ∈ chain,
      comparableKeys (get_sort_key sb a) (get_sort_key sb b) = true := by
    intro a ha b hb
    have h1 := (List.all_eq_true.mp h) a ha
    exact (List.all_eq_true.mp h1) b hb
  cases chain with
  | nil =>
    left
    simp
  | cons c0 rest =>
    cases hk : get_sort_key sb c0 with
    | num n0 =>
      left
      intro c hc
      have hc0 := hp c0 (by simp) c hc
      rw [hk] at hc0
      cases hkc : get_sort_key sb c with
      | num n => exact ⟨n, rfl⟩
      | raw v =>
        rw [hkc] at hc0
        simp [comparableKeys] at hc0
    | raw v0 =>
      cases v0 with
      | jstr s0 =>
        right
        intro c hc
        have hc0 := hp c0 (by simp) c hc
        rw [hk] at hc0
        cases hkc : get_sort_key sb c with
        | num n =>
          rw [hkc] at hc0
          simp [comparableKeys] at hc0
        | raw v =>
          rw [hkc] at hc0
          cases v with
          | jstr s => exact ⟨s, rfl⟩
          | jnum n => simp [comparableKeys] at hc0
          | jbool b => simp [comparableKeys] at hc0
          | jnull => simp [comparableKeys] at hc0
          | jarr xs => simp [comparableKeys] at hc0
          | jobj fs => simp [comparableKeys] at hc0
      | jnum n =>
        have := hp c0 (by simp) c0 (by simp)
        rw [hk] at this
        simp [comparableKeys] at this
      | jbool b =>
        have := hp c0 (by simp) c0 (by simp)
        rw [hk] at this
        simp [comparableKeys] at this
      | jnull =>
        have := hp c0 (by simp) c0 (by simp)
        rw [hk] at this
        simp [comparableKeys] at this
      | jarr xs =>
        have := hp c0 (by simp) c0 (by simp)
        rw [hk] at this
        simp [comparableKeys] at this
      | jobj fs =>
        have := hp c0 (by simp) c0 (by simp)
        rw [hk] at this
        simp [comparableKeys] at this

theorem sortable_total (sb : String) (chain : List Contract)
    (h : sortableChain sb chain = true) :
    ∀ x ∈ chain, ∀ y ∈ chain,
      contractLE sb x y = true ∨ contractLE sb y x = true := by
  rcases sortable_cases sb chain h with hn | hs
  · intro x hx y hy
    obtain ⟨nx, ex⟩ := hn x hx
    obtain ⟨ny, ey⟩ := hn y hy
    rw [contractLE, contractLE, ex, ey]
    exact PyNum.leB_total nx ny
  · intro x hx y hy
    obtain ⟨sx, ex⟩ := hs x hx
    obtain ⟨sy, ey⟩ := hs y hy
    rw [contractLE, contractLE, ex, ey]
    exact strLeB_total sx sy

theorem sortable_trans (sb : String) (chain : List Contract)
    (h : sortableChain sb chain = true) :
    ∀ x ∈ chain, ∀ y ∈ chain, ∀ z ∈ chain,
      contractLE sb x y = true → contractLE sb y z = true →
      contractLE sb x z = true := by
  rcases sortable_cases sb chain h with hn | hs
  · intro x hx y hy z hz h1 h2
    obtain ⟨nx, ex⟩ := hn x hx
    obtain ⟨ny, ey⟩ := hn y hy
    obtain ⟨nz, ez⟩ := hn z hz
    rw [contractLE, ex, ey] at h1
    rw [contractLE, ey, ez] at h2
    rw [contractLE, ex, ez]
    exact PyNum.leB_trans nx ny nz h1 h2
  · intro x hx y hy z hz h1 h2
    obtain ⟨sx, ex⟩ := hs x hx
    obtain ⟨sy, ey⟩ := hs y hy
    obtain ⟨sz, ez⟩ := hs z hz
    rw [contractLE, ex, ey] at h1
    rw [contractLE, ey, ez] at h2
    rw [contractLE, ex, ez]
    exact strLeB_trans sx sy sz h1 h2

theorem sortChain_length (sb so : String) (chain : List Contract) :
    (sortChain sb so chain).length = chain.length := by
  unfold sortChain
  split
  · simp [length_stableSort]
  · simp [length_stableSort]

theorem sortChain_idem (sb so : String) (chain : List Contract)
    (h : sortableChain sb chain = true) :
    sortChain sb so (sortChain sb so chain) = sortChain sb so chain := by
  have htot := sortable_total sb chain h
  have htr := sortable_trans sb chain h
  unfold sortChain
  by_cases hso : so = "desc"
  · rw [if_pos hso, if_pos hso, List.reverse_reverse]
    refine congrArg List.reverse ?_
    refine stableSort_idem (contractLE sb) chain.reverse ?_ ?_
    · intro x hx y hy
      exact htot x (List.mem_reverse.mp hx) y (List.mem_reverse.mp hy)
    · intro x hx y hy z hz
      exact htr x (List.mem_reverse.mp hx) y (List.mem_reverse.mp hy)
        z (List.mem_reverse.mp hz)
  · rw [if_neg hso, if_neg hso]
    exact stableSort_idem (contractLE sb) chain htot htr

/-- The "data" value of a well-formed options payload round-trips through
the contract coercion. -/
theorem contractsOf_map_jobj (chain : List Contract) :
    contractsOf? (chain.map JValue.jobj) = .ok chain := by
  induction chain with
  | nil => rfl
  | cons c rest ih => simp [contractsOf?, ih]

theorem listStartsWith_nil (s : List Char) : listStartsWith s [] = true := by
  cases s with
  | nil => rfl
  | cons a t => rfl

theorem listStartsWith_append (x r : List Char) :
    listStartsWith (x ++ r) x = true := by
  induction x with
  | nil => exact listStartsWith_nil _
  | cons a s ih => simp [listStartsWith, ih]

theorem listHasSub_append (p x : List Char) : listHasSub (p ++ x) x = true := by
  induction p with
  | nil =>
    cases x with
    | nil => rfl
    | cons c t =>
      have h := listStartsWith_append (c :: t) []
      rw [List.append_nil] at h
      simp [listHasSub, h]
  | cons q t ih => simp [listHasSub, ih]

/-- A string contains any suffix of itself obtained by appending. -/
theorem strContainsB_append (p x : String) : strContainsB (p ++ x) x = true := by
  unfold strContainsB
  have ht : (p ++ x).toList = p.toList ++ x.toList := by
    simp [String.toList, String.data_append]
  rw [ht]
  exact listHasSub_append p.toList x.toList

/-- C1: on a 2xx JSON body containing "Error Message", `make_alpha_request`
returns a string failure carrying the field's exact text — never the
structured body; a body without "Error Message" whose "Note" string
mentions "API call frequency" yields the rate-limit-warning failure
instead of the structured body. -/
theorem c1_provider_error_failure (data data' : PyDict) (v : JValue) (note : String)
    (h1 : pyLookup? data "Error Message" = some v)
    (h2 : pyLookup? data' "Error Message" = none)
    (h3 : pyLookup? data' "Note" = some (.jstr note))
    (h4 : strContainsB note "API call frequency" = true) :
    make_alpha_request_body data
      = .failure ("Alpha Vantage API error: " ++ pyStr v)
    ∧ strContainsB ("Alpha Vantage API error: " ++ pyStr v) (pyStr v) = true
    ∧ (make_alpha_request_body data).isStructuredB = false
    ∧ make_alpha_request_body data' = .failure ("Rate limit warning: " ++ note)
    ∧ (make_alpha_request_body data').isStructuredB = false := by
  have e1 : make_alpha_request_body data
      = .failure ("Alpha Vantage API error: " ++ pyStr v) := by
    unfold make_alpha_request_body
    rw [h1]
  have e2 : make_alpha_request_body data'
      = .failure ("Rate limit warning: " ++ note) := by
    unfold make_alpha_request_body
    rw [h2, h3]
    simp [h4]
  exact ⟨e1, strContainsB_append _ _, by rw [e1]; rfl, e2, by rw [e2]; rfl⟩

theorem c1_provider_error_failure_witness :
    make_alpha_request_body [("Error Message", JValue.jstr "Invalid API call")]
      = .failure ("Alpha Vantage API error: "
          ++ pyStr (JValue.jstr "Invalid API call"))
    ∧ make_alpha_request_body
        [("Note", JValue.jstr "Our standard API call frequency is 5 calls per minute")]
      = .failure ("Rate limit warning: "
          ++ "Our standard API call frequency is 5 calls per minute") := by
  have h := c1_provider_error_failure
    [("Error Message", JValue.jstr "Invalid API call")]
    [("Note", JValue.jstr "Our standard API call frequency is 5 calls per minute")]
    (JValue.jstr "Invalid API call")
    "Our standard API call frequency is 5 calls per minute"
    rfl rfl rfl (by decide)
  exact ⟨h.1, h.2.2.2.1⟩

/-- C4: sorting an options chain twice with the same field and order (the
`get_sort_key` key and the chosen direction) equals sorting it once; the
hypothesis states that Python's `sorted` is defined on the chain (all key
pairs comparable — otherwise `sorted` raises `TypeError` and no sorted
sequence exists). -/
theorem c4_sort_idempotent (sort_by sort_order : String) (chain : List Contract)
    (h : sortableChain sort_by chain = true) :
    sortChain sort_by sort_order (sortChain sort_by sort_order chain)
      = sortChain sort_by sort_order chain :=
  sortChain_idem sort_by sort_order chain h

theorem c4_sort_idempotent_witness :
    sortableChain "strike" [[("strike", JValue.jstr "105")],
      [("strike", JValue.jstr "95")], [("strike", JValue.jstr "100")]] = true
    ∧ sortChain "strike" "desc"
        (sortChain "strike" "desc" [[("strike", JValue.jstr "105")],
          [("strike", JValue.jstr "95")], [("strike", JValue.jstr "100")]])
      = sortChain "strike" "desc" [[("strike", JValue.jstr "105")],
          [("strike", JValue.jstr "95")], [("strike", JValue.jstr "100")]] :=
  ⟨by decide, c4_sort_idempotent "strike" "desc" _ (by decide)⟩

/-- C5 counterexample: for a contract whose "strike" field is "$x" the fallback key
is the STRIPPED string "x", not the raw unparsed value "$x" — the claim's
"raw unparsed value" is false on the code. -/
theorem c5_counterexample :
    get_sort_key "strike" [("strike", JValue.jstr "$x")]
      = SortKey.raw (JValue.jstr "x")
    ∧ SortKey.raw (JValue.jstr "x") ≠ SortKey.raw (JValue.jstr "$x") := by
  constructor
  · rfl
  · intro h
    injection h with h1
    injection h1 with h2
    exact absurd h2 (by decide)

/-- C5 (amended): for a string-valued sort field the key is the parsed
number of the `$`/`%`-stripped text, falling back to the STRIPPED string
(not the raw one) when parsing fails; a non-string value `float()` rejects
falls back to that raw value unchanged; string fallbacks compare
lexicographically (`strLeB`) rather than numerically. -/
theorem c5_sort_key_fallback_amended (sort_by : String) (c1 c2 : Contract)
    (s sa sb : String) (v : JValue)
    (h1 : pyGet c1 sort_by (.jnum ⟨0, 0⟩) = .jstr s)
    (h2 : pyGet c2 sort_by (.jnum ⟨0, 0⟩) = v)
    (hvs : (match v with | .jstr _ => true | _ => false) = false)
    (hvf : (match v with | .jnum _ => true | .jbool _ => true | _ => false) = false) :
    get_sort_key sort_by c1
      = (match pyFloat? (stripMoney s) with
          | some n => SortKey.num n
          | none => SortKey.raw (.jstr (stripMoney s)))
    ∧ get_sort_key sort_by c2 = SortKey.raw v
    ∧ keyLE (SortKey.raw (.jstr sa)) (SortKey.raw (.jstr sb)) = strLeB sa sb := by
  refine ⟨?_, ?_, rfl⟩
  · unfold get_sort_key
    rw [h1]
  · unfold get_sort_key
    rw [h2]
    cases v with
    | jstr t => simp at hvs
    | jnum n => simp at hvf
    | jbool b => simp at hvf
    | jnull => rfl
    | jarr xs => rfl
    | jobj fs => rfl

theorem c5_sort_key_fallback_amended_witness :
    get_sort_key "strike" [("strike", JValue.jstr "$9.5")]
      = (match pyFloat? (stripMoney "$9.5") with
          | some n => SortKey.num n
          | none => SortKey.raw (.jstr (stripMoney "$9.5")))
    ∧ get_sort_key "strike" [("strike", JValue.jnull)]
      = SortKey.raw JValue.jnull
    ∧ keyLE (SortKey.raw (.jstr "b")) (SortKey.raw (.jstr "a"))
      = strLeB "b" "a" :=
  c5_sort_key_fallback_amended "strike" [("strike", JValue.jstr "$9.5")]
    [("strike", JValue.jnull)] "$9.5" "b" "a" JValue.jnull rfl rfl rfl rfl

/-- C10: a contract lacking the sort field gets `contract.get(sort_by, 0)`
= 0, so its key is the number 0.0, which sorts before every non-negative
numeric key under ascending order. -/
theorem c10_missing_field_zero_key (sort_by : String) (c : Contract) (q : PyNum)
    (h : pyLookup? c sort_by = none) (hq : 0 ≤ q.toRat) :
    get_sort_key sort_by c = SortKey.num ⟨0, 0⟩
    ∧ PyNum.toRat ⟨0, 0⟩ = 0
    ∧ keyLE (SortKey.num ⟨0, 0⟩) (SortKey.num q) = true := by
  have h0 : PyNum.toRat ⟨0, 0⟩ = 0 := by
    simp [PyNum.toRat]
  refine ⟨?_, h0, ?_⟩
  · unfold get_sort_key pyGet
    rw [h]
    rfl
  · show PyNum.leB ⟨0, 0⟩ q = true
    rw [PyNum.leB_iff, h0]
    exact hq

theorem c10_missing_field_zero_key_witness :
    get_sort_key "strike" [("mark", JValue.jstr "1")] = SortKey.num ⟨0, 0⟩
    ∧ PyNum.toRat ⟨0, 0⟩ = 0
    ∧ keyLE (SortKey.num ⟨0, 0⟩) (SortKey.num ⟨5, 0⟩) = true :=
  c10_missing_field_zero_key "strike" [("mark", JValue.jstr "1")] ⟨5, 0⟩ rfl
    (by norm_num [PyNum.toRat])

theorem paramLookup_cons (p : String × ParamV) (t : List (String × ParamV))
    (k : String) :
    paramLookup? (p :: t) k = if p.1 = k then some p.2 else paramLookup? t k := by
  by_cases h : p.1 = k
  · have hb : (p.1 == k) = true := by simpa using h
    simp only [paramLookup?, List.find?, hb, if_pos h]
    rfl
  · have hb : (p.1 == k) = false := by simpa using h
    simp only [paramLookup?, List.find?, hb, if_neg h]

theorem paramLookup_dictSet_self (d : List (String × ParamV)) (k : String)
    (v : ParamV) : paramLookup? (dictSet d k v) k = some v := by
  induction d with
  | nil => simp [dictSet, paramLookup_cons]
  | cons p t ih =>
    simp only [dictSet]
    by_cases h : p.1 = k
    · rw [if_pos h, paramLookup_cons, if_pos rfl]
    · rw [if_neg h, paramLookup_cons, if_neg h]
      exact ih

theorem paramLookup_dictSet_ne (d : List (String × ParamV)) (k k' : String)
    (v : ParamV) (h : k' ≠ k) :
    paramLookup? (dictSet d k v) k' = paramLookup? d k' := by
  induction d with
  | nil =>
    simp only [dictSet]
    rw [paramLookup_cons, if_neg (fun he => h he.symm)]
  | cons p t ih =>
    simp only [dictSet]
    by_cases hp : p.1 = k
    · rw [if_pos hp, paramLookup_cons, paramLookup_cons,
        if_neg (fun he => h he.symm), if_neg (fun he => h (hp.symm.trans he).symm)]
    · rw [if_neg hp, paramLookup_cons, paramLookup_cons]
      by_cases hq : p.1 = k'
      · rw [if_pos hq, if_pos hq]
      · rw [if_neg hq, if_neg hq]
        exact ih

theorem paramLookup_none_of_not_mem (ext : List (String × ParamV)) (k : String)
    (h : k ∉ ext.map Prod.fst) : paramLookup? ext k = none := by
  induction ext with
  | nil => rfl
  | cons p t ih =>
    simp only [List.map_cons, List.mem_cons] at h
    push_neg at h
    rw [paramLookup_cons, if_neg (fun he => h.1 he.symm)]
    exact ih h.2

theorem paramLookup_dictUpdate_none (base ext : List (String × ParamV))
    (k : String) (h : paramLookup? ext k = none) :
    paramLookup? (dictUpdate base ext) k = paramLookup? base k := by
  induction ext generalizing base with
  | nil => rfl
  | cons p rest ih =>
    rw [paramLookup_cons] at h
    by_cases hp : p.1 = k
    · rw [if_pos hp] at h
      exact absurd h (by simp)
    · rw [if_neg hp] at h
      show paramLookup? (dictUpdate (dictSet base p.1 p.2) rest) k
        = paramLookup? base k
      rw [ih (dictSet base p.1 p.2) h,
        paramLookup_dictSet_ne base p.1 k p.2 (fun he => hp he.symm)]

theorem paramLookup_dictUpdate_found (base ext : List (String × ParamV))
    (k : String) (v : ParamV) (hnd : (ext.map Prod.fst).Nodup)
    (h : paramLookup? ext k = some v) :
    paramLookup? (dictUpdate base ext) k = some v := by
  induction ext generalizing base with
  | nil => simp [paramLookup?, List.find?] at h
  | cons p rest ih =>
    simp only [List.map_cons] at hnd
    rcases List.nodup_cons.mp hnd with ⟨hp, hrest⟩
    rw [paramLookup_cons] at h
    by_cases hk : p.1 = k
    · rw [if_pos hk] at h
      have hnone : paramLookup? rest k = none :=
        paramLookup_none_of_not_mem rest k (hk ▸ hp)
      show paramLookup? (dictUpdate (dictSet base p.1 p.2) rest) k = some v
      rw [paramLookup_dictUpdate_none (dictSet base p.1 p.2) rest k hnone, hk,
        paramLookup_dictSet_self]
      exact h
    · rw [if_neg hk] at h
      exact ih (dictSet base p.1 p.2) hrest h

/-- C7 counterexample: with a null symbol (the crypto call) and no extra
params, the constructed mapping still contains the key "symbol" (bound to
`None`), contradicting "contains the symbol key only when the symbol
argument is non-null". -/
theorem c7_counterexample :
    paramLookup? (alpha_request_params "CURRENCY_EXCHANGE_RATE" none
      (some "demo") []) "symbol" = some none
    ∧ (alpha_request_params "CURRENCY_EXCHANGE_RATE" none (some "demo") []).map
        Prod.fst = ["function", "symbol", "apikey"] := by
  exact ⟨rfl, rfl⟩

/-- Updating a dict whose lookup of `k` already succeeds cannot make that
lookup fail: `dict.update` replaces or adds bindings, never removes one. -/
theorem paramLookup_isSome_dictUpdate (base ext : List (String × ParamV))
    (k : String) (hnd : (ext.map Prod.fst).Nodup)
    (hbase : (paramLookup? base k).isSome = true) :
    (paramLookup? (dictUpdate base ext) k).isSome = true := by
  cases h : paramLookup? ext k with
  | none =>
    rw [paramLookup_dictUpdate_none base ext k h]
    exact hbase
  | some w =>
    rw [paramLookup_dictUpdate_found base ext k w hnd h]
    rfl

/-- C7 (amended): the params dict always contains the keys "function",
"symbol" and "apikey" — "symbol" is bound to `None` when the symbol
argument is null, not omitted; the extra params are merged last, so ANY
key bound in them (including one of the three earlier keys, as
`from_currency`-style collisions would be) ends up bound to the extras'
value, while an earlier key the extras do not name keeps its original
binding (operation name, symbol argument, API key). -/
theorem c7_params_amended (f : String) (sym apikey : ParamV)
    (extra : List (String × ParamV)) (k kb : String) (v : ParamV)
    (hnd : (extra.map Prod.fst).Nodup)
    (hkv : paramLookup? extra k = some v)
    (hkb : kb = "function" ∨ kb = "symbol" ∨ kb = "apikey")
    (hfree : paramLookup? extra kb = none) :
    (paramLookup? (alpha_request_params f sym apikey extra) "function").isSome
      = true
    ∧ (paramLookup? (alpha_request_params f sym apikey extra) "symbol").isSome
      = true
    ∧ (paramLookup? (alpha_request_params f sym apikey extra) "apikey").isSome
      = true
    ∧ paramLookup? (alpha_request_params f sym apikey extra) k = some v
    ∧ paramLookup? (alpha_request_params f sym apikey extra) kb
      = paramLookup? [("function", some f), ("symbol", sym),
          ("apikey", apikey)] kb := by
  unfold alpha_request_params
  refine ⟨?_, ?_, ?_, paramLookup_dictUpdate_found _ extra k v hnd hkv, ?_⟩
  · exact paramLookup_isSome_dictUpdate _ extra _ hnd rfl
  · exact paramLookup_isSome_dictUpdate _ extra _ hnd rfl
  · exact paramLookup_isSome_dictUpdate _ extra _ hnd rfl
  · rcases hkb with rfl | rfl | rfl <;>
      rw [paramLookup_dictUpdate_none _ extra _ hfree]

theorem c7_params_amended_witness :
    (paramLookup? (alpha_request_params "CURRENCY_EXCHANGE_RATE" none
      (some "demo") [("symbol", some "IBM")]) "function").isSome = true
    ∧ (paramLookup? (alpha_request_params "CURRENCY_EXCHANGE_RATE" none
        (some "demo") [("symbol", some "IBM")]) "symbol").isSome = true
    ∧ (paramLookup? (alpha_request_params "CURRENCY_EXCHANGE_RATE" none
        (some "demo") [("symbol", some "IBM")]) "apikey").isSome = true
    ∧ paramLookup? (alpha_request_params "CURRENCY_EXCHANGE_RATE" none
        (some "demo") [("symbol", some "IBM")]) "symbol" = some (some "IBM")
    ∧ paramLookup? (alpha_request_params "CURRENCY_EXCHANGE_RATE" none
        (some "demo") [("symbol", some "IBM")]) "function"
      = paramLookup? [("function", some "CURRENCY_EXCHANGE_RATE"),
          ("symbol", none), ("apikey", some "demo")] "function" :=
  c7_params_amended "CURRENCY_EXCHANGE_RATE" none (some "demo")
    [("symbol", some "IBM")] "symbol" "function" (some "IBM")
    (by simp) rfl (Or.inl rfl) rfl

/-- C8 counterexample: `format_company_info` DOES have a missing-container
case — the empty/falsy overview dict returns a distinct no-data message,
not the all-"N/A" fixed-layout report. -/
theorem c8_counterexample :
    format_company_info [] = "No company information available in the response"
    ∧ format_company_info [] ≠ companyRender [] := by
  refine ⟨rfl, ?_⟩
  intro h
  exact absurd h (by decide)

/-- C8 (amended): an empty (falsy) overview dict yields the distinct
message "No company information available in the response"; any non-empty
overview dict — whatever fields it lacks — renders the full fixed-layout
report, each missing field degrading to the "N/A" placeholder. -/
theorem c8_company_info_amended (d : PyDict) (hne : d ≠ []) :
    format_company_info d = companyRender d
    ∧ format_company_info []
      = "No company information available in the response" := by
  constructor
  · have he : d.isEmpty = false := by
      cases d with
      | nil => exact absurd rfl hne
      | cons p t => rfl
    unfold format_company_info
    rw [he]
    rfl
  · rfl

theorem c8_company_info_amended_witness :
    format_company_info [("foo", JValue.jnull)]
      = companyRender [("foo", JValue.jnull)]
    ∧ format_company_info []
      = "No company information available in the response" :=
  c8_company_info_amended [("foo", JValue.jnull)] (by simp)

/-- C9 counterexample: an empty argument mapping lacks the required
"symbol", yet the result is the fixed "Missing arguments for the request"
text, not "Missing symbol parameter". -/
theorem c9_counterexample :
    handle_call_tool_pre "get-stock-quote" (some [])
      = ToolOutcome.text "Missing arguments for the request"
    ∧ handle_call_tool_pre "get-stock-quote" (some [])
      ≠ ToolOutcome.text "Missing symbol parameter" := by
  refine ⟨rfl, ?_⟩
  decide

/-- C9 (amended): for every symbol-keyed tool, a NON-EMPTY argument mapping
lacking "symbol" yields exactly the text "Missing symbol parameter" as a
normal (successful) tool result; an empty or absent mapping instead yields
"Missing arguments for the request". -/
theorem c9_missing_symbol_amended (name : String) (args : PyDict)
    (hname : name ∈ symbolKeyedTools) (hne : args ≠ [])
    (hmiss : pyLookup? args "symbol" = none) :
    handle_call_tool_pre name (some args)
      = ToolOutcome.text "Missing symbol parameter"
    ∧ handle_call_tool_pre name none
      = ToolOutcome.text "Missing arguments for the request"
    ∧ handle_call_tool_pre name (some [])
      = ToolOutcome.text "Missing arguments for the request" := by
  have hempty : args.isEmpty = false := by
    cases args with
    | nil => exact absurd rfl hne
    | cons p t => rfl
  have hguard : symbolGuard name args = .text "Missing symbol parameter" := by
    unfold symbolGuard
    rw [hmiss]
    rfl
  refine ⟨?_, rfl, ?_⟩
  · fin_cases hname <;> simp [handle_call_tool_pre, hempty, hguard]
  · fin_cases hname <;> rfl

theorem quote_split (d : PyDict) :
    format_quote d = "No quote data available in the response"
    ∨ (∃ gq, pyGet d "Global Quote" (.jobj []) = .jobj gq
        ∧ format_quote d = quoteRender gq)
    ∨ (∃ m, format_quote d = "Error formatting quote data: " ++ m) := by
  by_cases hf : pyFalsy (pyGet d "Global Quote" (.jobj [])) = true
  · left
    simp only [format_quote, hf, if_true]
  · rw [Bool.not_eq_true] at hf
    right
    cases hgq : pyGet d "Global Quote" (.jobj [])
    rotate_left 5
    next fields =>
      rw [hgq] at hf
      left
      exact ⟨fields, rfl,
        by simp only [format_quote, hgq, hf, Bool.false_eq_true, if_false]⟩
    all_goals
      rw [hgq] at hf
      right
      simp only [format_quote, hgq, hf, Bool.false_eq_true, if_false]
      exact ⟨_, rfl⟩

theorem company_split (d : PyDict) :
    format_company_info d = "No company information available in the response"
    ∨ format_company_info d = companyRender d := by
  cases d with
  | nil => exact Or.inl rfl
  | cons p t => exact Or.inr rfl

theorem crypto_split (d : PyDict) :
    format_crypto_rate d = "No exchange rate data available in the response"
    ∨ (∃ r, pyGet d "Realtime Currency Exchange Rate" (.jobj []) = .jobj r
        ∧ format_crypto_rate d = cryptoRender r)
    ∨ (∃ m, format_crypto_rate d = "Error formatting cryptocurrency data: " ++ m) := by
  by_cases hf : pyFalsy (pyGet d "Realtime Currency Exchange Rate" (.jobj [])) = true
  · left
    simp only [format_crypto_rate, hf, if_true]
  · rw [Bool.not_eq_true] at hf
    right
    cases hr : pyGet d "Realtime Currency Exchange Rate" (.jobj [])
    rotate_left 5
    next fields =>
      rw [hr] at hf
      left
      exact ⟨fields, rfl,
        by simp only [format_crypto_rate, hr, hf, Bool.false_eq_true, if_false]⟩
    all_goals
      rw [hr] at hf
      right
      simp only [format_crypto_rate, hr, hf, Bool.false_eq_true, if_false]
      exact ⟨_, rfl⟩

theorem ts_split (d : PyDict) :
    format_time_series d = "No time series data available in the response"
    ∨ (∃ entries md bs, pyGet d "Time Series (Daily)" (.jobj []) = .jobj entries
        ∧ pyGet d "Meta Data" (.jobj []) = .jobj md
        ∧ tsBlocks? (entries.take 5) = .ok bs
        ∧ format_time_series d = String.intercalate "\n" (tsHeading md :: bs))
    ∨ (∃ m, format_time_series d = "Error formatting time series data: " ++ m) := by
  by_cases hf : pyFalsy (pyGet d "Time Series (Daily)" (.jobj [])) = true
  · left
    simp only [format_time_series, hf, if_true]
  · rw [Bool.not_eq_true] at hf
    right
    cases hts : pyGet d "Time Series (Daily)" (.jobj [])
    rotate_left 5
    next entries =>
      rw [hts] at hf
      cases hmd : pyGet d "Meta Data" (.jobj [])
      rotate_left 5
      next md =>
        cases hbs : tsBlocks? (entries.take 5) with
        | ok bs =>
          left
          exact ⟨entries, md, bs, rfl, rfl, hbs, by
            simp only [format_time_series, hts, hf, Bool.false_eq_true,
              if_false, hmd, hbs]⟩
        | error t =>
          right
          simp only [format_time_series, hts, hf, Bool.false_eq_true,
            if_false, hmd, hbs]
          exact ⟨_, rfl⟩
      all_goals
        right
        simp only [format_time_series, hts, hf, Bool.false_eq_true,
          if_false, hmd]
        exact ⟨_, rfl⟩
    all_goals
      rw [hts] at hf
      right
      simp only [format_time_series, hts, hf, Bool.false_eq_true, if_false]
      exact ⟨_, rfl⟩

theorem options_split (d : PyDict) (limit : Int) (sort_by sort_order : String) :
    (∃ v, pyLookup? d "Error Message" = some v
        ∧ format_historical_options d limit sort_by sort_order
            = "Error: " ++ pyStr v)
    ∨ format_historical_options d limit sort_by sort_order
        = "No options data available in the response"
    ∨ (∃ chain, toContracts? (pyGet d "data" (.jarr [])) = .ok chain
        ∧ sortableChain sort_by chain = true
        ∧ format_historical_options d limit sort_by sort_order
            = optionsRender d limit sort_by sort_order chain)
    ∨ (∃ m, format_historical_options d limit sort_by sort_order
        = "Error formatting options data: " ++ m) := by
  cases hEM : pyLookup? d "Error Message" with
  | some v =>
    exact Or.inl ⟨v, rfl, by simp only [format_historical_options, hEM]⟩
  | none =>
    right
    by_cases hf : pyFalsy (pyGet d "data" (.jarr [])) = true
    · left
      simp only [format_historical_options, hEM, hf, if_true]
    · rw [Bool.not_eq_true] at hf
      right
      cases hok : toContracts? (pyGet d "data" (.jarr [])) with
      | ok chain =>
        by_cases hs : sortableChain sort_by chain = true
        · left
          exact ⟨chain, rfl, hs, by
            simp only [format_historical_options, hEM, hf, Bool.false_eq_true,
              if_false, hok, hs, if_true]⟩
        · right
          rw [Bool.not_eq_true] at hs
          simp only [format_historical_options, hEM, hf, Bool.false_eq_true,
            if_false, hok, hs]
          exact ⟨_, rfl⟩
      | error t =>
        right
        simp only [format_historical_options, hEM, hf, Bool.false_eq_true,
          if_false, hok]
        exact ⟨_, rfl⟩

/-- C2: each formatter is total on every dict input (the embedding is a
total function) and every outcome is either its no-data message, the
exception-free rendering, or — whenever the Python body would raise — a
string of the form "Error formatting … data: <message>"; input mutation
does not exist in this pure model of the code, which mutates nothing. -/
theorem c2_formatters_guarded (d : PyDict) (limit : Int)
    (sort_by sort_order : String) :
    (format_quote d = "No quote data available in the response"
      ∨ (∃ gq, pyGet d "Global Quote" (.jobj []) = .jobj gq
          ∧ format_quote d = quoteRender gq)
      ∨ (∃ m, format_quote d = "Error formatting quote data: " ++ m))
    ∧ (format_company_info d = "No company information available in the response"
      ∨ format_company_info d = companyRender d)
    ∧ (format_crypto_rate d = "No exchange rate data available in the response"
      ∨ (∃ r, pyGet d "Realtime Currency Exchange Rate" (.jobj []) = .jobj r
          ∧ format_crypto_rate d = cryptoRender r)
      ∨ (∃ m, format_crypto_rate d = "Error formatting cryptocurrency data: " ++ m))
    ∧ (format_time_series d = "No time series data available in the response"
      ∨ (∃ entries md bs, pyGet d "Time Series (Daily)" (.jobj []) = .jobj entries
          ∧ pyGet d "Meta Data" (.jobj []) = .jobj md
          ∧ tsBlocks? (entries.take 5) = .ok bs
          ∧ format_time_series d = String.intercalate "\n" (tsHeading md :: bs))
      ∨ (∃ m, format_time_series d = "Error formatting time series data: " ++ m))
    ∧ ((∃ v, pyLookup? d "Error Message" = some v
          ∧ format_historical_options d limit sort_by sort_order
              = "Error: " ++ pyStr v)
      ∨ format_historical_options d limit sort_by sort_order
          = "No options data available in the response"
      ∨ (∃ chain, toContracts? (pyGet d "data" (.jarr [])) = .ok chain
          ∧ sortableChain sort_by chain = true
          ∧ format_historical_options d limit sort_by sort_order
              = optionsRender d limit sort_by sort_order chain)
      ∨ (∃ m, format_historical_options d limit sort_by sort_order
          = "Error formatting options data: " ++ m)) :=
  ⟨quote_split d, company_split d, crypto_split d, ts_split d,
    options_split d limit sort_by sort_order⟩

theorem tsBlocks_map (vs : List (String × PyDict)) :
    tsBlocks? (vs.map (fun p => (p.1, JValue.jobj p.2)))
      = .ok (vs.map (fun p => tsBlock p.1 p.2)) := by
  induction vs with
  | nil => rfl
  | cons p rest ih => simp [tsBlocks?, ih]

/-- C6: with at least 6 dated entries (the first five of them objects) and
an object metadata, `format_time_series` yields the symbol/last-refreshed
header followed by exactly 5 date blocks in the mapping's insertion order;
an absent or empty date-indexed mapping yields the single no-data
message. -/
theorem c6_time_series_five_blocks (d dempty : PyDict)
    (entries : List (String × JValue)) (vs : List (String × PyDict))
    (md : PyDict)
    (hts : pyGet d "Time Series (Daily)" (.jobj []) = .jobj entries)
    (hlen : 6 ≤ entries.length)
    (hvs : entries.take 5 = vs.map (fun p => (p.1, JValue.jobj p.2)))
    (hmd : pyGet d "Meta Data" (.jobj []) = .jobj md)
    (hempty : pyFalsy (pyGet dempty "Time Series (Daily)" (.jobj [])) = true) :
    format_time_series d
      = String.intercalate "\n"
          (tsHeading md :: vs.map (fun p => tsBlock p.1 p.2))
    ∧ (vs.map (fun p => tsBlock p.1 p.2)).length = 5
    ∧ format_time_series dempty
      = "No time series data available in the response" := by
  have hfal : pyFalsy (JValue.jobj entries) = false := by
    cases entries with
    | nil => simp at hlen
    | cons e t => rfl
  refine ⟨?_, ?_, ?_⟩
  · simp only [format_time_series, hts, hfal, hmd, Bool.false_eq_true, if_false]
    rw [hvs, tsBlocks_map]
  · have h1 : (entries.take 5).length = 5 := by
      rw [List.length_take]
      omega
    rw [hvs] at h1
    simpa using h1
  · simp only [format_time_series, hempty, if_true]

theorem c6_time_series_five_blocks_witness :
    format_time_series
      [("Time Series (Daily)", JValue.jobj
          [("2024-01-05", JValue.jobj [("1. open", JValue.jstr "10")]),
           ("2024-01-04", JValue.jobj []), ("2024-01-03", JValue.jobj []),
           ("2024-01-02", JValue.jobj []), ("2024-01-01", JValue.jobj []),
           ("2023-12-29", JValue.jobj [])]),
       ("Meta Data", JValue.jobj
          [("2. Symbol", JValue.jstr "AAPL"),
           ("3. Last Refreshed", JValue.jstr "2024-01-05")])]
      = String.intercalate "\n"
          (tsHeading [("2. Symbol", JValue.jstr "AAPL"),
              ("3. Last Refreshed", JValue.jstr "2024-01-05")]
            :: ([("2024-01-05", [("1. open", JValue.jstr "10")]),
                 ("2024-01-04", ([] : PyDict)), ("2024-01-03", ([] : PyDict)),
                 ("2024-01-02", ([] : PyDict)),
                 ("2024-01-01", ([] : PyDict))] :
                  List (String × PyDict)).map (fun p => tsBlock p.1 p.2))
    ∧ (([("2024-01-05", [("1. open", JValue.jstr "10")]),
         ("2024-01-04", ([] : PyDict)), ("2024-01-03", ([] : PyDict)),
         ("2024-01-02", ([] : PyDict)), ("2024-01-01", ([] : PyDict))] :
          List (String × PyDict)).map (fun p => tsBlock p.1 p.2)).length = 5
    ∧ format_time_series []
      = "No time series data available in the response" :=
  c6_time_series_five_blocks
    [("Time Series (Daily)", JValue.jobj
        [("2024-01-05", JValue.jobj [("1. open", JValue.jstr "10")]),
         ("2024-01-04", JValue.jobj []), ("2024-01-03", JValue.jobj []),
         ("2024-01-02", JValue.jobj []), ("2024-01-01", JValue.jobj []),
         ("2023-12-29", JValue.jobj [])]),
     ("Meta Data", JValue.jobj
        [("2. Symbol", JValue.jstr "AAPL"),
         ("3. Last Refreshed", JValue.jstr "2024-01-05")])]
    []
    [("2024-01-05", JValue.jobj [("1. open", JValue.jstr "10")]),
     ("2024-01-04", JValue.jobj []), ("2024-01-03", JValue.jobj []),
     ("2024-01-02", JValue.jobj []), ("2024-01-01", JValue.jobj []),
     ("2023-12-29", JValue.jobj [])]
    [("2024-01-05", [("1. open", JValue.jstr "10")]),
     ("2024-01-04", []), ("2024-01-03", []), ("2024-01-02", []),
     ("2024-01-01", [])]
    [("2. Symbol", JValue.jstr "AAPL"),
     ("3. Last Refreshed", JValue.jstr "2024-01-05")]
    rfl (by simp) rfl rfl rfl

/-- C3: for a non-empty sortable chain, `limit = -1` renders the whole
sorted chain with no truncation suffix, and `limit = N` with
`0 ≤ N < total` renders exactly `N` contracts followed by the suffix
naming the `total - N` remaining ones. -/
theorem c3_options_limit_truncation (d : PyDict) (chain : List Contract)
    (sort_by sort_order : String) (N : Nat)
    (hEM : pyLookup? d "Error Message" = none)
    (hdata : pyGet d "data" (.jarr []) = .jarr (chain.map JValue.jobj))
    (hne : chain ≠ [])
    (hsort : sortableChain sort_by chain = true)
    (hN : N < chain.length) :
    format_historical_options d (-1) sort_by sort_order
      = optionsHeading d sort_by sort_order
        ++ String.join ((sortChain sort_by sort_order chain).map contractBlock)
    ∧ (sortChain sort_by sort_order chain).length = chain.length
    ∧ format_historical_options d (N : Int) sort_by sort_order
      = optionsHeading d sort_by sort_order
        ++ String.join
            (((sortChain sort_by sort_order chain).take N).map contractBlock)
        ++ "\n... and " ++ toString ((chain.length : Int) - (N : Int))
        ++ " more contracts"
    ∧ ((sortChain sort_by sort_order chain).take N).length = N := by
  have hfal : pyFalsy (JValue.jarr (chain.map JValue.jobj)) = false := by
    cases chain with
    | nil => exact absurd rfl hne
    | cons c t => rfl
  have hok : toContracts? (JValue.jarr (chain.map JValue.jobj)) = .ok chain := by
    simp [toContracts?, contractsOf_map_jobj]
  have hlen := sortChain_length sort_by sort_order chain
  have hmain : ∀ limit : Int, format_historical_options d limit sort_by sort_order
      = optionsRender d limit sort_by sort_order chain := by
    intro limit
    simp only [format_historical_options, hEM, hdata, hfal, hok, hsort,
      Bool.false_eq_true, if_false, if_true]
  refine ⟨?_, hlen, ?_, ?_⟩
  · rw [hmain (-1)]
    unfold optionsRender optionsSuffixed optionsDisplay
    rw [if_pos rfl, if_neg (by simp)]
  · rw [hmain (N : Int)]
    unfold optionsRender optionsSuffixed optionsDisplay
    rw [if_neg (show ¬ ((N : Int) = -1) by omega)]
    rw [if_pos (show (N : Int) ≠ -1
      ∧ ((sortChain sort_by sort_order chain).length : Int) > (N : Int) from
        ⟨by omega, by rw [hlen]; exact_mod_cast hN⟩)]
    unfold pySliceTo
    rw [if_pos (show (0 : Int) ≤ (N : Int) by omega), Int.toNat_natCast, hlen]
  · rw [List.length_take, hlen]
    omega

theorem c3_options_limit_truncation_witness :
    format_historical_options
      [("data", JValue.jarr [JValue.jobj [("strike", JValue.jstr "105")],
          JValue.jobj [("strike", JValue.jstr "95")]])] (-1) "strike" "asc"
      = optionsHeading
          [("data", JValue.jarr [JValue.jobj [("strike", JValue.jstr "105")],
              JValue.jobj [("strike", JValue.jstr "95")]])] "strike" "asc"
        ++ String.join ((sortChain "strike" "asc"
            [[("strike", JValue.jstr "105")],
             [("strike", JValue.jstr "95")]]).map contractBlock)
    ∧ (sortChain "strike" "asc" [[("strike", JValue.jstr "105")],
        [("strike", JValue.jstr "95")]]).length = 2
    ∧ format_historical_options
        [("data", JValue.jarr [JValue.jobj [("strike", JValue.jstr "105")],
            JValue.jobj [("strike", JValue.jstr "95")]])] (1 : Nat) "strike" "asc"
      = optionsHeading
          [("data", JValue.jarr [JValue.jobj [("strike", JValue.jstr "105")],
              JValue.jobj [("strike", JValue.jstr "95")]])] "strike" "asc"
        ++ String.join (((sortChain "strike" "asc"
            [[("strike", JValue.jstr "105")],
             [("strike", JValue.jstr "95")]]).take 1).map contractBlock)
        ++ "\n... and " ++ toString (((2 : Nat) : Int) - ((1 : Nat) : Int))
        ++ " more contracts"
    ∧ ((sortChain "strike" "asc" [[("strike", JValue.jstr "105")],
        [("strike", JValue.jstr "95")]]).take 1).length = 1 :=
  c3_options_limit_truncation
    [("data", JValue.jarr [JValue.jobj [("strike", JValue.jstr "105")],
        JValue.jobj [("strike", JValue.jstr "95")]])]
    [[("strike", JValue.jstr "105")], [("strike", JValue.jstr "95")]]
    "strike" "asc" 1 rfl rfl (by simp) (by decide) (by decide)

theorem c9_missing_symbol_amended_witness :
    handle_call_tool_pre "get-time-series" (some [("outputsize", JValue.jstr "full")])
      = ToolOutcome.text "Missing symbol parameter"
    ∧ handle_call_tool_pre "get-time-series" none
      = ToolOutcome.text "Missing arguments for the request"
    ∧ handle_call_tool_pre "get-time-series" (some [])
      = ToolOutcome.text "Missing arguments for the request" :=
  c9_missing_symbol_amended "get-time-series" [("outputsize", JValue.jstr "full")]
    (by decide) (by simp) rfl
